import Mathlib

/-!
Formal model of the Git-Sync-System daemon (src/sync.py) and proofs of the
specification's testable properties.

The daemon is shallowly embedded: the external git tool is an environment
mapping each command the program issues to an exit status and captured
output; every method of the GitSync class becomes a Lean function over that
environment which returns its Python value together with the trace of git
commands it issued.  Python exceptions are modelled with Except, and each
try/except block of the source appears as a match on the guarded value.
-/

namespace GitSync

/-- The double-quote character, written by code point to keep source plain. -/
def quoteChar : Char := Char.ofNat 34

/-- The newline character. -/
def nlChar : Char := Char.ofNat 10

/-- Python str.strip with no argument: drop leading and trailing whitespace,
as applied by run_git to captured output (sync.py line 47). -/
def pyStrip (s : String) : String :=
  ⟨((s.data.dropWhile Char.isWhitespace).reverse.dropWhile Char.isWhitespace).reverse⟩

/-- Helper for pySplitlines: accumulate the current line in reverse. -/
def splitlinesAux : List Char → List Char → List String
  | [], acc => if acc.isEmpty then [] else [String.mk acc.reverse]
  | c :: rest, acc =>
    if c = nlChar then String.mk acc.reverse :: splitlinesAux rest []
    else splitlinesAux rest (c :: acc)

/-- Python str.splitlines on newline-separated text (sync.py line 103): an
empty string yields no lines, and a terminating newline does not create an
extra empty line. -/
def pySplitlines (s : String) : List String := splitlinesAux s.data []

/-- Python int() on a decimal digit string (sync.py line 189). -/
def pyToNat (s : String) : Nat := s.data.foldl (fun n c => 10 * n + (c.toNat - 48)) 0

/-- The git commands issued anywhere in sync.py, one constructor per argv
shape actually built by the code:
status ~ [status, --porcelain]; add ~ [add, .]; commit msg ~ [commit, -m, msg];
pullRebase ~ [pull, --rebase]; push ~ [push];
pushSetUpstream ~ [push, --set-upstream, origin, main]; pushU ~ [push, -u, origin, main];
pullUnrelated ~ [pull, origin, main, --rebase, --allow-unrelated-histories];
revListCount ~ [rev-list, --count, origin/main..main];
configGetEmail ~ [config, user.email]; configGetName ~ [config, user.name];
configSetEmailGlobal v ~ [config, --global, user.email, v];
configSetNameGlobal v ~ [config, --global, user.name, v];
configUnsetHttpProxy ~ [config, --global, --unset, http.proxy];
configUnsetHttpsProxy ~ [config, --global, --unset, https.proxy];
configSetPostBuffer v ~ [config, --global, http.postBuffer, v];
configSetAutoSetupRemote v ~ [config, --global, push.autoSetupRemote, v];
remoteSetUrl u ~ [remote, set-url, origin, u]. -/
inductive GitCmd
  | status
  | add
  | commit (msg : String)
  | pullRebase
  | push
  | pushSetUpstream
  | pushU
  | pullUnrelated
  | revListCount
  | configGetEmail
  | configGetName
  | configSetEmailGlobal (v : String)
  | configSetNameGlobal (v : String)
  | configUnsetHttpProxy
  | configUnsetHttpsProxy
  | configSetPostBuffer (v : String)
  | configSetAutoSetupRemote (v : String)
  | remoteSetUrl (url : String)
deriving DecidableEq

/-- Result of one git subprocess: exit success plus captured stdout and
stderr text. -/
structure CmdResult where
  success : Bool
  stdout : String
  stderr : String
deriving DecidableEq

/-- The repository gateway: deterministic response of the external git tool
to each command during one run. -/
def Env : Type := GitCmd → CmdResult

/-- GitSync.run_git (sync.py lines 36-57): returns stdout.strip(); when
check is true a nonzero exit raises CalledProcessError, modelled as
Except.error carrying the stripped stderr; when check is false the stripped
stdout is returned regardless of the exit status. -/
def run_git (env : Env) (c : GitCmd) (check : Bool) : Except String String :=
  let r := env c
  if check && !r.success then Except.error (pyStrip r.stderr)
  else Except.ok (pyStrip r.stdout)

/-- Quote stripping of sync.py lines 106-107: when the parsed path both
starts and ends with a double quote, drop one character from each end. -/
def stripQuotes (fp : String) : String :=
  if fp.data.head? = some quoteChar ∧ fp.data.getLast? = some quoteChar then
    ⟨(fp.data.drop 1).dropLast⟩
  else fp

/-- One status line's parse (sync.py lines 105-108): line[3:].strip() with
surrounding quotes stripped. -/
def parseStatusLine (line : String) : String := stripQuotes (pyStrip ⟨line.data.drop 3⟩)

/-- GitSync.get_modified_files (sync.py lines 95-111): porcelain status
query; any exception yields the empty list, an empty status yields the
empty list, and otherwise every line longer than three characters is parsed
into a path. -/
def get_modified_files (env : Env) : List String :=
  match run_git env GitCmd.status true with
  | Except.error _ => []
  | Except.ok status =>
    if status.data.isEmpty then []
    else
      (pySplitlines status).foldl
        (fun files line =>
          if 3 < line.length then files ++ [parseStatusLine line] else files) []

/-- The filesystem as one poll observes it: the modification time of each
relative path, or none when the path does not exist (or getmtime raises
OSError, sync.py lines 118-124). -/
def FileSys : Type := String → Option Nat

/-- GitSync.get_latest_mtime (sync.py lines 113-125): maximum modification
time over the paths that still exist, starting from 0. -/
def get_latest_mtime (fs : FileSys) (files : List String) : Nat :=
  files.foldl
    (fun max_mtime rel_path =>
      match fs rel_path with
      | some mtime => if max_mtime < mtime then mtime else max_mtime
      | none => max_mtime) 0

/-- GitSync.is_ahead (sync.py lines 185-193): rev-list count query with
check=False; true exactly when the output is nonempty, all digits, and has
value greater than zero. -/
def is_ahead (env : Env) : Bool :=
  match run_git env GitCmd.revListCount false with
  | Except.error _ => false
  | Except.ok ahead =>
    if !ahead.data.isEmpty && ahead.data.all Char.isDigit && decide (0 < pyToNat ahead)
    then true else false

/-- GitSync.check_identity (sync.py lines 127-143): the trace of git
commands it issues.  The identity queries use check=False; when a value is
missing the interactive answer is written with a global config command
whose failure raises and is absorbed by the surrounding handler, cutting
the rest of the function short. -/
def check_identity (env : Env) (emailInput nameInput : String) : List GitCmd :=
  let base := [GitCmd.configGetEmail, GitCmd.configGetName]
  let email := pyStrip (env GitCmd.configGetEmail).stdout
  let name := pyStrip (env GitCmd.configGetName).stdout
  if email.data.isEmpty || name.data.isEmpty then
    if email.data.isEmpty then
      if (env (GitCmd.configSetEmailGlobal emailInput)).success then
        if name.data.isEmpty then
          base ++ [GitCmd.configSetEmailGlobal emailInput, GitCmd.configSetNameGlobal nameInput]
        else base ++ [GitCmd.configSetEmailGlobal emailInput]
      else base ++ [GitCmd.configSetEmailGlobal emailInput]
    else base ++ [GitCmd.configSetNameGlobal nameInput]
  else base

/-- GitSync.pull_changes (sync.py lines 240-244): one best-effort rebase
pull with check=False inside a handler that swallows everything. -/
def pull_changes (_env : Env) : List GitCmd := [GitCmd.pullRebase]

/-- Body of GitSync.commit_and_push before its exception handler (sync.py
lines 227-236): the trace of commands issued together with the exception
outcome at the point the body ends. -/
def commit_and_push_body (env : Env) (ts : String) : List GitCmd × Except String Unit :=
  match run_git env GitCmd.add true with
  | Except.error e => ([GitCmd.add], Except.error e)
  | Except.ok _ =>
    let trace :=
      [GitCmd.add, GitCmd.commit ("Auto sync: " ++ ts)] ++ pull_changes env ++ [GitCmd.push]
    match run_git env GitCmd.push true with
    | Except.error e => (trace, Except.error e)
    | Except.ok _ => (trace, Except.ok ())

/-- GitSync.commit_and_push (sync.py lines 226-238): the body with its
except handler applied, so the raised error is logged and discarded. -/
def commit_and_push (env : Env) (ts : String) : List GitCmd :=
  (commit_and_push_body env ts).1

/-- Everything one call of GitSync.sync observes from the outside world:
the git gateway, the filesystem, the current clock, the formatted commit
timestamp, and the interactive identity answers. -/
structure PollEnv where
  git : Env
  fs : FileSys
  now : Nat
  ts : String
  emailInput : String
  nameInput : String

/-- GitSync.sync (sync.py lines 195-224): one poll tick.  Takes the current
pending_changes_since and the idle threshold and returns the new
pending_changes_since together with the trace of git commands issued. -/
def sync (p : PollEnv) (pending : Option Nat) (idle_threshold : Int) :
    Option Nat × List GitCmd :=
  let identTrace := check_identity p.git p.emailInput p.nameInput
  let modified_files := get_modified_files p.git
  let ahead := is_ahead p.git
  let pre := identTrace ++ [GitCmd.status, GitCmd.revListCount]
  if modified_files.isEmpty then
    if ahead then (pending, pre ++ commit_and_push p.git p.ts)
    else (none, pre ++ pull_changes p.git)
  else
    let last_mtime0 := get_latest_mtime p.fs modified_files
    let last_mtime := if last_mtime0 = 0 then p.now else last_mtime0
    let idle_time : Int := (p.now : Int) - (last_mtime : Int)
    if idle_threshold ≤ idle_time then
      (none, pre ++ commit_and_push p.git p.ts)
    else
      (if pending = none then some p.now else pending, pre)

/-- GitSync.sync at the exception level: the same control flow, with the
Except outcome of the handled commit_and_push body kept visible so that an
uncaught error would propagate out of the poll. -/
def sync_exc (p : PollEnv) (pending : Option Nat) (idle_threshold : Int) :
    Except String (Option Nat × List GitCmd) :=
  let identTrace := check_identity p.git p.emailInput p.nameInput
  let modified_files := get_modified_files p.git
  let ahead := is_ahead p.git
  let pre := identTrace ++ [GitCmd.status, GitCmd.revListCount]
  if modified_files.isEmpty then
    if ahead then
      match commit_and_push_body p.git p.ts with
      | (t, Except.error _) => Except.ok (pending, pre ++ t)
      | (t, Except.ok _) => Except.ok (pending, pre ++ t)
    else Except.ok (none, pre ++ pull_changes p.git)
  else
    let last_mtime0 := get_latest_mtime p.fs modified_files
    let last_mtime := if last_mtime0 = 0 then p.now else last_mtime0
    let idle_time : Int := (p.now : Int) - (last_mtime : Int)
    if idle_threshold ≤ idle_time then
      match commit_and_push_body p.git p.ts with
      | (t, Except.error _) => Except.ok (none, pre ++ t)
      | (t, Except.ok _) => Except.ok (none, pre ++ t)
    else
      Except.ok (if pending = none then some p.now else pending, pre)

/-- One poll's effect on pending_changes_since. -/
def pollPending (thr : Int) (pending : Option Nat) (p : PollEnv) : Option Nat :=
  (sync p pending thr).1

/-- GitSync.sync folded over a sequence of polls, threading
pending_changes_since. -/
def runPolls (thr : Int) (pending : Option Nat) (ps : List PollEnv) : Option Nat :=
  ps.foldl (pollPending thr) pending

/-- The poll observes a dirty tree whose substituted idle time is below the
threshold: the waiting branch of sync.py lines 215-218. -/
def waitsPoll (thr : Int) (p : PollEnv) : Bool :=
  let m := get_modified_files p.git
  let last_mtime0 := get_latest_mtime p.fs m
  let last_mtime := if last_mtime0 = 0 then p.now else last_mtime0
  !m.isEmpty && decide ((p.now : Int) - (last_mtime : Int) < thr)

/-- The poll observes a clean tree but unpushed commits: the push-retry
branch of sync.py lines 219-221, which leaves pending_changes_since
untouched. -/
def retryPoll (p : PollEnv) : Bool :=
  (get_modified_files p.git).isEmpty && is_ahead p.git

/-- Ordering rank of the commands issued inside commit_and_push. -/
def phase : GitCmd → Nat
  | GitCmd.add => 0
  | GitCmd.commit _ => 1
  | GitCmd.pullRebase => 2
  | GitCmd.push => 3
  | _ => 4

/-- Whether the command is one of the push variants issued by sync.py. -/
def isPushCmd : GitCmd → Bool
  | GitCmd.push => true
  | GitCmd.pushSetUpstream => true
  | GitCmd.pushU => true
  | _ => false

/-- Whether the command can stage paths or create commits in the abstract
repository model. -/
def touchesRepo : GitCmd → Bool
  | GitCmd.add => true
  | GitCmd.commit _ => true
  | _ => false

/-- Abstract state of the local repository, modelling the wrapped
version-control tool (an opaque command-execution service per the spec):
the staged paths, the working-tree modifications, and how many commit
objects the commit command has created. -/
structure Repo where
  staged : List String
  workdir : List String
  commitsCreated : Nat
deriving DecidableEq

/-- Effect of one command on the abstract repository: a failed command
changes nothing; add stages every working-tree modification; commit creates
a commit exactly when something is staged; no other command creates a
commit. -/
def applyCmd (r : Repo) (c : GitCmd) (res : CmdResult) : Repo :=
  if res.success then
    match c with
    | GitCmd.add => { r with staged := r.staged ++ r.workdir, workdir := [] }
    | GitCmd.commit _ =>
      if r.staged.isEmpty then r
      else { r with staged := [], commitsCreated := r.commitsCreated + 1 }
    | _ => r
  else r

/-- Run a trace of commands against the abstract repository under the given
environment. -/
def runTrace (env : Env) (r : Repo) (t : List GitCmd) : Repo :=
  t.foldl (fun r c => applyCmd r c (env c)) r

/-- GitSync.repair_connection (sync.py lines 145-183): the trace of
commands issued.  The global config writes and the optional remote set-url
never raise (check=False); the first push raises on failure and the handler
then issues the unrelated-history pull (check=False) and exactly one retry
push, whose own failure is only logged. -/
def repair_connection (env : Env) (remote_url : Option String) : List GitCmd :=
  let base :=
    [GitCmd.configUnsetHttpProxy, GitCmd.configUnsetHttpsProxy,
     GitCmd.configSetPostBuffer ("524288000"), GitCmd.configSetAutoSetupRemote ("true")] ++
    (match remote_url with
     | some u => [GitCmd.remoteSetUrl u]
     | none => [])
  match run_git env GitCmd.pushSetUpstream true with
  | Except.ok _ => base ++ [GitCmd.pushSetUpstream]
  | Except.error _ =>
    base ++ [GitCmd.pushSetUpstream, GitCmd.pullUnrelated, GitCmd.pushU]

/-- The global git configuration and remote linkage repair_connection can
touch. -/
structure GlobalCfg where
  httpProxy : Option String
  httpsProxy : Option String
  postBuffer : Option String
  autoSetupRemote : Option String
  originUrl : Option String
deriving DecidableEq

/-- Effect of one command on the global configuration and remote linkage:
failed commands change nothing; each config write overwrites exactly its
own key; remote set-url reassigns the origin URL. -/
def applyGlobal (cfg : GlobalCfg) (c : GitCmd) (res : CmdResult) : GlobalCfg :=
  if res.success then
    match c with
    | GitCmd.configUnsetHttpProxy => { cfg with httpProxy := none }
    | GitCmd.configUnsetHttpsProxy => { cfg with httpsProxy := none }
    | GitCmd.configSetPostBuffer v => { cfg with postBuffer := some v }
    | GitCmd.configSetAutoSetupRemote v => { cfg with autoSetupRemote := some v }
    | GitCmd.remoteSetUrl u => { cfg with originUrl := some u }
    | _ => cfg
  else cfg

/-- Configuration state left by one repair_connection run. -/
def repair_state (env : Env) (remote_url : Option String) (cfg : GlobalCfg) : GlobalCfg :=
  (repair_connection env remote_url).foldl (fun c cmd => applyGlobal c cmd (env cmd)) cfg

/-- Outcome of the final push attempt of one repair_connection run: the
first push when it succeeds, otherwise the retry push. -/
def repair_outcome (env : Env) : Bool :=
  if (env GitCmd.pushSetUpstream).success then true else (env GitCmd.pushU).success

/-- One repair_connection run: the configuration state it leaves together
with the outcome of its final push attempt. -/
def repair_run (env : Env) (remote_url : Option String) (cfg : GlobalCfg) :
    GlobalCfg × Bool :=
  (repair_state env remote_url cfg, repair_outcome env)

/-- A successful command result with the given stdout. -/
def okOut (s : String) : CmdResult := ⟨true, s, ""⟩

/-- A failed command result. -/
def failRes : CmdResult := ⟨false, "", "fatal"⟩

/-- Concrete gateway: one untracked file, identity configured, not ahead. -/
def envDirty : Env := fun c =>
  match c with
  | GitCmd.status => okOut ("?? a.md")
  | GitCmd.configGetEmail => okOut ("e")
  | GitCmd.configGetName => okOut ("n")
  | _ => okOut ("")

/-- Concrete gateway: clean tree, identity configured, two unpushed
commits, every command succeeding. -/
def envCleanAhead : Env := fun c =>
  match c with
  | GitCmd.revListCount => okOut ("2")
  | GitCmd.configGetEmail => okOut ("e")
  | GitCmd.configGetName => okOut ("n")
  | _ => okOut ("")

/-- Concrete gateway: clean tree, two unpushed commits, but the stage
command fails. -/
def envCleanAheadAddFail : Env := fun c =>
  match c with
  | GitCmd.revListCount => okOut ("2")
  | GitCmd.configGetEmail => okOut ("e")
  | GitCmd.configGetName => okOut ("n")
  | GitCmd.add => failRes
  | _ => okOut ("")

/-- Concrete gateway: status query fails. -/
def envStatusFail : Env := fun c =>
  match c with
  | GitCmd.status => failRes
  | _ => okOut ("")

/-- Concrete gateway: every command succeeds with empty output. -/
def envAllOk : Env := fun _ => okOut ("")

/-- Concrete gateway: both push attempts fail, everything else succeeds. -/
def envPushFail : Env := fun c =>
  match c with
  | GitCmd.pushSetUpstream => failRes
  | GitCmd.pushU => failRes
  | _ => okOut ("")

/-- Concrete poll: dirty tree whose file was modified right now, so the
idle time is 0 and a 60 second threshold keeps the poll waiting. -/
def pollDirtyWait : PollEnv :=
  ⟨envDirty, fun _ => some 100, 100, "ts", "e", "n"⟩

/-- Concrete poll: clean working tree with unpushed commits. -/
def pollCleanAhead : PollEnv :=
  ⟨envCleanAhead, fun _ => none, 200, "ts", "e", "n"⟩

/-- Concrete poll: dirty tree whose file carries a modification time one
second in the future of the current clock. -/
def pollFutureMtime : PollEnv :=
  ⟨envDirty, fun _ => some 101, 100, "ts", "e", "n"⟩

/-- Concrete poll: dirty tree whose reported path no longer exists on
disk. -/
def pollDeleted : PollEnv :=
  ⟨envDirty, fun _ => none, 100, "ts", "e", "n"⟩

/-- Concrete poll: clean working tree with unpushed commits but a failing
stage command. -/
def pollCleanAheadAddFail : PollEnv :=
  ⟨envCleanAheadAddFail, fun _ => none, 200, "ts", "e", "n"⟩

/-- Concrete abstract repository: clean working tree, nothing staged, five
commits already created. -/
def repoClean : Repo := ⟨[], [], 5⟩

end GitSync

namespace GitSync

lemma foldl_collect (ls : List String) (acc : List String) :
    ls.foldl (fun files line =>
      if 3 < line.length then files ++ [parseStatusLine line] else files) acc
    = acc ++ (ls.filter (fun l => 3 < l.length)).map parseStatusLine := by
  induction ls generalizing acc with
  | nil => simp
  | cons l ls ih =>
    by_cases h : 3 < l.length
    · simp [List.foldl_cons, List.filter_cons, h, ih]
    · simp [List.foldl_cons, List.filter_cons, h, ih]

lemma get_latest_mtime_eq_zero (fs : FileSys) (files : List String)
    (h : ∀ f ∈ files, fs f = none) : get_latest_mtime fs files = 0 := by
  unfold get_latest_mtime
  suffices hgen : ∀ l : List String, (∀ f ∈ l, fs f = none) → ∀ acc : Nat,
      l.foldl (fun max_mtime rel_path =>
        match fs rel_path with
        | some mtime => if max_mtime < mtime then mtime else max_mtime
        | none => max_mtime) acc = acc by
    exact hgen files h 0
  intro l hl
  induction l with
  | nil => intro acc; rfl
  | cons a l ih =>
    intro acc
    rw [List.foldl_cons]
    have ha : fs a = none := hl a (by simp)
    rw [ha]
    exact ih (fun f hf => hl f (by simp [hf])) acc

lemma check_identity_shape (g : Env) (e n : String) :
    (check_identity g e n).all (fun c => !touchesRepo c && !isPushCmd c) = true := by
  unfold check_identity
  dsimp only
  split_ifs <;> rfl

lemma add_not_mem_check_identity (g : Env) (e n : String) :
    GitCmd.add ∉ check_identity g e n := by
  intro hmem
  have hall := List.all_eq_true.mp (check_identity_shape g e n) _ hmem
  simp [touchesRepo, isPushCmd] at hall

lemma push_not_mem_check_identity (g : Env) (e n : String) :
    GitCmd.push ∉ check_identity g e n := by
  intro hmem
  have hall := List.all_eq_true.mp (check_identity_shape g e n) _ hmem
  simp [touchesRepo, isPushCmd] at hall

lemma add_mem_commit_and_push (env : Env) (ts : String) :
    GitCmd.add ∈ commit_and_push env ts := by
  unfold commit_and_push commit_and_push_body
  rcases h : run_git env GitCmd.add true with e | o
  · simp [h]
  · rcases h2 : run_git env GitCmd.push true with e2 | o2 <;> simp [h, h2, pull_changes]

lemma commit_and_push_eq_of_add_ok (env : Env) (ts : String)
    (hadd : (env GitCmd.add).success = true) :
    commit_and_push env ts =
      [GitCmd.add, GitCmd.commit ("Auto sync: " ++ ts), GitCmd.pullRebase, GitCmd.push] := by
  unfold commit_and_push commit_and_push_body run_git pull_changes
  cases hs : (env GitCmd.push).success <;> simp [hadd, hs]

lemma push_mem_commit_and_push (env : Env) (ts : String)
    (hadd : (env GitCmd.add).success = true) :
    GitCmd.push ∈ commit_and_push env ts := by
  rw [commit_and_push_eq_of_add_ok env ts hadd]
  simp

/-- C8: get_modified_files never raises; on any status-query failure it
returns the empty list, and on success it returns exactly the parse of
each sufficiently long line of the stripped porcelain output, the path
portion with surrounding quotes stripped. -/
theorem C8_status_parse (env : Env) :
    ((env GitCmd.status).success = false → get_modified_files env = []) ∧
    ((env GitCmd.status).success = true → get_modified_files env =
      ((pySplitlines (pyStrip (env GitCmd.status).stdout)).filter
        (fun l => 3 < l.length)).map parseStatusLine) := by
  constructor
  · intro h
    unfold get_modified_files run_git
    simp [h]
  · intro h
    unfold get_modified_files run_git
    simp only [h, Bool.not_true, Bool.and_false, Bool.false_eq_true, if_false]
    by_cases he : (pyStrip (env GitCmd.status).stdout).data.isEmpty
    · have hd : (pyStrip (env GitCmd.status).stdout).data = [] := by
        simpa using he
      simp only [he, if_true]
      unfold pySplitlines
      rw [hd]
      rfl
    · simp only [he, Bool.false_eq_true, if_false]
      simpa using foldl_collect (pySplitlines (pyStrip (env GitCmd.status).stdout)) []

/-- C8 witness: the failure clause at a failing status query and the parse
clause at a one-file porcelain output. -/
theorem C8_status_parse_witness :
    get_modified_files envStatusFail = [] ∧
    get_modified_files envDirty =
      ((pySplitlines (pyStrip (envDirty GitCmd.status).stdout)).filter
        (fun l => 3 < l.length)).map parseStatusLine :=
  ⟨(C8_status_parse envStatusFail).1 (by decide),
   (C8_status_parse envDirty).2 (by decide)⟩

/-- C10: is_ahead never raises (the rev-list query uses check=False, so
run_git returns the stripped stdout unconditionally), and it returns true
exactly when that output is a nonempty all-digit string of value greater
than zero. -/
theorem C10_is_ahead_spec (env : Env) :
    run_git env GitCmd.revListCount false =
      Except.ok (pyStrip (env GitCmd.revListCount).stdout) ∧
    (is_ahead env = true ↔
      ((pyStrip (env GitCmd.revListCount).stdout).data ≠ [] ∧
       (pyStrip (env GitCmd.revListCount).stdout).data.all Char.isDigit = true ∧
       0 < pyToNat (pyStrip (env GitCmd.revListCount).stdout))) := by
  have h1 : run_git env GitCmd.revListCount false =
      Except.ok (pyStrip (env GitCmd.revListCount).stdout) := by
    unfold run_git
    simp
  refine ⟨h1, ?_⟩
  unfold is_ahead
  rw [h1]
  simp [Bool.and_eq_true, Bool.not_eq_true', and_assoc]

/-- C9: one poll of the sync operation never raises, whatever the gateway
returns: the exception-level model of the poll always produces a normal
result, equal to that of the plain model. -/
theorem C9_poll_never_raises (p : PollEnv) (pending : Option Nat) (thr : Int) :
    sync_exc p pending thr = Except.ok (sync p pending thr) := by
  unfold sync_exc sync commit_and_push
  rcases hb : commit_and_push_body p.git p.ts with ⟨t, r⟩
  cases r <;> simp only [hb] <;> split_ifs <;> rfl

/-- C4: within one commit_and_push transition the issued commands are
strictly ordered stage, commit, pull, push, and whenever a push is issued
the pull, the stage, and the commit were issued before it. -/
theorem C4_commit_pull_push_order (env : Env) (ts : String) :
    List.Pairwise (fun a b => phase a < phase b) (commit_and_push env ts) ∧
    (GitCmd.push ∈ commit_and_push env ts →
      GitCmd.pullRebase ∈ commit_and_push env ts ∧
      GitCmd.add ∈ commit_and_push env ts ∧
      GitCmd.commit ("Auto sync: " ++ ts) ∈ commit_and_push env ts) := by
  unfold commit_and_push commit_and_push_body pull_changes
  rcases h : run_git env GitCmd.add true with e | o
  · simp [h, phase]
  · rcases h2 : run_git env GitCmd.push true with e2 | o2 <;> simp [h, h2, phase]

/-- C4 witness: in the all-success environment the push is issued, and so
are the pull, the stage, and the commit. -/
theorem C4_commit_pull_push_order_witness :
    GitCmd.pullRebase ∈ commit_and_push envAllOk ("ts") ∧
    GitCmd.add ∈ commit_and_push envAllOk ("ts") ∧
    GitCmd.commit ("Auto sync: " ++ "ts") ∈ commit_and_push envAllOk ("ts") :=
  (C4_commit_pull_push_order envAllOk ("ts")).2 (by decide)

/-- C6: when the first repair push fails, the repair trace contains exactly
one unrelated-history pull, exactly one retry push, and exactly two push
attempts in total, so a third push is never attempted. -/
theorem C6_repair_single_retry (env : Env) (u : Option String)
    (hfail : (env GitCmd.pushSetUpstream).success = false) :
    (repair_connection env u).count GitCmd.pullUnrelated = 1 ∧
    (repair_connection env u).count GitCmd.pushU = 1 ∧
    ((repair_connection env u).filter isPushCmd).length = 2 := by
  unfold repair_connection run_git
  rcases u with _ | url <;> simp [hfail, List.count_cons, isPushCmd]

/-- C6 witness: the repair trace under an environment where both push
attempts fail. -/
theorem C6_repair_single_retry_witness :
    (repair_connection envPushFail none).count GitCmd.pullUnrelated = 1 ∧
    (repair_connection envPushFail none).count GitCmd.pushU = 1 ∧
    ((repair_connection envPushFail none).filter isPushCmd).length = 2 :=
  C6_repair_single_retry envPushFail none (by decide)

end GitSync

namespace GitSync

/-- C2 counterexample: a dirty poll whose file carries a modification time
in the future of the clock; with idleThreshold = 0 the computed idle time
is negative and no sync is triggered on that poll. -/
theorem C2_counterexample :
    get_modified_files pollFutureMtime.git ≠ [] ∧
    GitCmd.add ∉ (sync pollFutureMtime none 0).2 := by decide

/-- C2 amended: with idleThreshold = 0, a poll that observes a non-empty
modified-path set triggers the commit/pull/push sequence provided the
latest modification time does not exceed the current clock, which makes the
computed idle time non-negative. -/
theorem C2_zero_threshold_syncs (p : PollEnv) (pending : Option Nat)
    (hm : get_modified_files p.git ≠ [])
    (hle : get_latest_mtime p.fs (get_modified_files p.git) ≤ p.now) :
    GitCmd.add ∈ (sync p pending 0).2 := by
  have hm' : (get_modified_files p.git).isEmpty = false := by
    simp [List.isEmpty_iff, hm]
  have htrace : (sync p pending 0).2 =
      (check_identity p.git p.emailInput p.nameInput ++ [GitCmd.status, GitCmd.revListCount])
        ++ commit_and_push p.git p.ts := by
    unfold sync
    by_cases h0 : get_latest_mtime p.fs (get_modified_files p.git) = 0
    · simp [hm', h0]
    · have hpos : (0 : Int) ≤
          (p.now : Int) - (get_latest_mtime p.fs (get_modified_files p.git) : Int) := by
        omega
      simp [hm', h0, hpos]
  rw [htrace]
  exact List.mem_append.mpr (Or.inr (add_mem_commit_and_push p.git p.ts))

/-- C2 witness: a dirty poll whose file was modified exactly at the current
clock triggers a sync under a zero threshold. -/
theorem C2_zero_threshold_syncs_witness :
    GitCmd.add ∈ (sync pollDirtyWait none 0).2 :=
  C2_zero_threshold_syncs pollDirtyWait none (by decide) (by decide)

/-- C3: get_latest_mtime returns 0 on the empty path list and on a list of
paths that all no longer exist; in that case the sync poll substitutes the
current time, the idle time becomes 0, and the commit/pull/push sequence is
triggered exactly when the threshold is at most 0 — never through an
enormous idle time. -/
theorem C3_missing_paths_idle_zero (p : PollEnv) (pending : Option Nat) (thr : Int)
    (hm : get_modified_files p.git ≠ [])
    (hfs : ∀ f ∈ get_modified_files p.git, p.fs f = none) :
    get_latest_mtime p.fs [] = 0 ∧
    get_latest_mtime p.fs (get_modified_files p.git) = 0 ∧
    (GitCmd.add ∈ (sync p pending thr).2 ↔ thr ≤ 0) := by
  have h0 := get_latest_mtime_eq_zero p.fs _ hfs
  have hm' : (get_modified_files p.git).isEmpty = false := by
    simp [List.isEmpty_iff, hm]
  refine ⟨rfl, h0, ?_⟩
  unfold sync
  simp only [hm', Bool.false_eq_true, if_false, h0, if_true, sub_self]
  by_cases hthr : thr ≤ (0 : Int)
  · have hmem := add_mem_commit_and_push p.git p.ts
    simp [hthr, List.mem_append, hmem]
  · have hnot := add_not_mem_check_identity p.git p.emailInput p.nameInput
    simp [hthr, List.mem_append, hnot]

/-- C3 witness: a dirty poll whose reported path was deleted from disk,
with threshold 0. -/
theorem C3_missing_paths_idle_zero_witness :
    get_latest_mtime pollDeleted.fs [] = 0 ∧
    get_latest_mtime pollDeleted.fs (get_modified_files pollDeleted.git) = 0 ∧
    (GitCmd.add ∈ (sync pollDeleted none 0).2 ↔ (0 : Int) ≤ 0) :=
  C3_missing_paths_idle_zero pollDeleted none 0 (by decide) (by decide)

lemma applyCmd_id (r : Repo) (res : CmdResult) (c : GitCmd)
    (hc : touchesRepo c = false) : applyCmd r c res = r := by
  cases c <;> simp_all [touchesRepo, applyCmd]

lemma runTrace_append (env : Env) (r : Repo) (t1 t2 : List GitCmd) :
    runTrace env r (t1 ++ t2) = runTrace env (runTrace env r t1) t2 := by
  unfold runTrace
  exact List.foldl_append _ _ _ _

lemma runTrace_eq_self (env : Env) (r : Repo) (t : List GitCmd)
    (h : ∀ c ∈ t, touchesRepo c = false) : runTrace env r t = r := by
  induction t generalizing r with
  | nil => rfl
  | cons c t ih =>
    have hstep : runTrace env r (c :: t) = runTrace env (applyCmd r c (env c)) t := rfl
    rw [hstep, applyCmd_id r (env c) c (h c (by simp))]
    exact ih r (fun x hx => h x (by simp [hx]))

lemma pre_not_touches (g : Env) (e n : String) :
    ∀ c ∈ check_identity g e n ++ [GitCmd.status, GitCmd.revListCount],
      touchesRepo c = false := by
  intro c hc
  rcases List.mem_append.mp hc with h | h
  · have hall := List.all_eq_true.mp (check_identity_shape g e n) _ h
    simp only [Bool.and_eq_true, Bool.not_eq_true'] at hall
    exact hall.1
  · simp only [List.mem_cons, List.not_mem_nil, or_false] at h
    rcases h with rfl | rfl <;> rfl

/-- C5 counterexample: a poll with a clean tree and unpushed commits in
which the stage command fails issues no push at all during that poll. -/
theorem C5_counterexample :
    get_modified_files pollCleanAheadAddFail.git = [] ∧
    is_ahead pollCleanAheadAddFail.git = true ∧
    GitCmd.push ∉ (sync pollCleanAheadAddFail none 60).2 := by decide

/-- C5 amended: on a poll with an empty modified-path set and unpushed
local commits, provided the stage command succeeds, a push is issued during
that poll, and no new commit is created: starting from a repository with a
clean working tree and an empty stage, the poll's whole command trace
leaves the count of created commits unchanged. -/
theorem C5_push_retry_no_commit (p : PollEnv) (pending : Option Nat) (thr : Int) (r : Repo)
    (hm : get_modified_files p.git = [])
    (ha : is_ahead p.git = true)
    (hadd : (p.git GitCmd.add).success = true)
    (hst : r.staged = [])
    (hwd : r.workdir = []) :
    GitCmd.push ∈ (sync p pending thr).2 ∧
    (runTrace p.git r (sync p pending thr).2).commitsCreated = r.commitsCreated := by
  have hm' : (get_modified_files p.git).isEmpty = true := by simp [hm]
  have htrace : (sync p pending thr).2 =
      (check_identity p.git p.emailInput p.nameInput ++ [GitCmd.status, GitCmd.revListCount])
        ++ commit_and_push p.git p.ts := by
    unfold sync
    simp [hm', ha]
  rw [htrace]
  constructor
  · exact List.mem_append.mpr (Or.inr (push_mem_commit_and_push p.git p.ts hadd))
  · rw [runTrace_append,
        runTrace_eq_self p.git r _ (pre_not_touches p.git p.emailInput p.nameInput),
        commit_and_push_eq_of_add_ok p.git p.ts hadd]
    rcases r with ⟨st, wd, nc⟩
    simp only [Repo.mk.injEq] at hst hwd ⊢
    subst hst
    subst hwd
    simp [runTrace, applyCmd, hadd]

/-- C5 witness: the clean-and-ahead poll under the all-success gateway
issues a push and creates no commit on a clean five-commit repository. -/
theorem C5_push_retry_no_commit_witness :
    GitCmd.push ∈ (sync pollCleanAhead none 60).2 ∧
    (runTrace pollCleanAhead.git repoClean (sync pollCleanAhead none 60).2).commitsCreated =
      repoClean.commitsCreated :=
  C5_push_retry_no_commit pollCleanAhead none 60 repoClean (by decide) (by decide)
    (by decide) rfl rfl

lemma repair_state_closed (env : Env) (u : Option String) (cfg : GlobalCfg) :
    repair_state env u cfg =
      ⟨if (env GitCmd.configUnsetHttpProxy).success then none else cfg.httpProxy,
       if (env GitCmd.configUnsetHttpsProxy).success then none else cfg.httpsProxy,
       if (env (GitCmd.configSetPostBuffer ("524288000"))).success then some ("524288000")
         else cfg.postBuffer,
       if (env (GitCmd.configSetAutoSetupRemote ("true"))).success then some ("true")
         else cfg.autoSetupRemote,
       match u with
       | some url =>
         if (env (GitCmd.remoteSetUrl url)).success then some url else cfg.originUrl
       | none => cfg.originUrl⟩ := by
  unfold repair_state repair_connection run_git
  rcases u with _ | url <;>
    cases hp : (env GitCmd.pushSetUpstream).success <;>
      simp [hp, applyGlobal, List.foldl] <;> split_ifs <;> rfl

/-- C7: running the repair operation twice in a row under the same gateway
responses is idempotent: the second run reproduces the first run's global
configuration, remote linkage, and final push attempt outcome. -/
theorem C7_repair_idempotent (env : Env) (u : Option String) (cfg : GlobalCfg) :
    repair_run env u (repair_run env u cfg).1 = repair_run env u cfg := by
  unfold repair_run
  dsimp only
  simp only [Prod.mk.injEq]
  refine ⟨?_, trivial⟩
  rcases u with _ | url <;>
    simp only [repair_state_closed] <;> split_ifs <;> rfl

end GitSync

namespace GitSync

lemma waits_not_retry (thr : Int) (p : PollEnv) (hw : waitsPoll thr p = true) :
    retryPoll p = false := by
  simp only [waitsPoll, Bool.and_eq_true, Bool.not_eq_true'] at hw
  simp [retryPoll, hw.1]

lemma pollPending_eq (thr : Int) (q : Option Nat) (p : PollEnv) :
    pollPending thr q p =
      if waitsPoll thr p = true then (if q = none then some p.now else q)
      else if retryPoll p = true then q
      else none := by
  simp only [pollPending, sync, waitsPoll, retryPoll]
  by_cases hm : (get_modified_files p.git).isEmpty
  · by_cases ha : is_ahead p.git <;> simp [hm, ha]
  · have hm' : (get_modified_files p.git).isEmpty = false := by
      simpa using hm
    by_cases hi : (p.now : Int) -
        (if get_latest_mtime p.fs (get_modified_files p.git) = 0 then (p.now : Int)
         else (get_latest_mtime p.fs (get_modified_files p.git) : Int)) < thr
    · have hle : ¬ thr ≤ (p.now : Int) -
          (if get_latest_mtime p.fs (get_modified_files p.git) = 0 then (p.now : Int)
           else (get_latest_mtime p.fs (get_modified_files p.git) : Int)) :=
        not_le.mpr hi
      simp [hm', hi, hle]
    · have hle : thr ≤ (p.now : Int) -
          (if get_latest_mtime p.fs (get_modified_files p.git) = 0 then (p.now : Int)
           else (get_latest_mtime p.fs (get_modified_files p.git) : Int)) :=
        not_lt.mp hi
      simp [hm', hi, hle]

lemma exists_split_cons {α : Type} (P Q : α → Prop) (p : α) (ps : List α) :
    (∃ l x r, p :: ps = l ++ x :: r ∧ P x ∧ ∀ y ∈ r, Q y) ↔
      ((P p ∧ ∀ y ∈ ps, Q y) ∨ (∃ l x r, ps = l ++ x :: r ∧ P x ∧ ∀ y ∈ r, Q y)) := by
  constructor
  · rintro ⟨l, x, r, heq, hx, hr⟩
    cases l with
    | nil =>
      simp only [List.nil_append] at heq
      injection heq with h1 h2
      subst h2
      exact Or.inl ⟨h1 ▸ hx, hr⟩
    | cons a l =>
      simp only [List.cons_append] at heq
      injection heq with h1 h2
      exact Or.inr ⟨l, x, r, h2, hx, hr⟩
  · rintro (⟨hp, hps⟩ | ⟨l, x, r, heq, hx, hr⟩)
    · exact ⟨[], p, ps, rfl, hp, hps⟩
    · exact ⟨p :: l, x, r, by rw [heq, List.cons_append], hx, hr⟩

lemma runPolls_ne_none_iff (thr : Int) (ps : List PollEnv) :
    ∀ q : Option Nat, runPolls thr q ps ≠ none ↔
      ((∃ l x r, ps = l ++ x :: r ∧ waitsPoll thr x = true ∧ ∀ y ∈ r, retryPoll y = true) ∨
       (q ≠ none ∧ ∀ y ∈ ps, retryPoll y = true)) := by
  induction ps with
  | nil =>
    intro q
    simp [runPolls]
  | cons p ps ih =>
    intro q
    have hstep : runPolls thr q (p :: ps) = runPolls thr (pollPending thr q p) ps := rfl
    rw [hstep, ih,
      exists_split_cons (fun x => waitsPoll thr x = true) (fun y => retryPoll y = true) p ps,
      List.forall_mem_cons, pollPending_eq]
    by_cases hw : waitsPoll thr p = true
    · rw [if_pos hw]
      have hr := waits_not_retry thr p hw
      have hne : (if q = none then some p.now else q) ≠ none := by
        cases q <;> simp
      constructor
      · rintro (hE | ⟨-, hA⟩)
        · exact Or.inl (Or.inr hE)
        · exact Or.inl (Or.inl ⟨hw, hA⟩)
      · rintro ((⟨-, hA⟩ | hE) | ⟨-, hQp, -⟩)
        · exact Or.inr ⟨hne, hA⟩
        · exact Or.inl hE
        · rw [hr] at hQp
          exact Bool.noConfusion hQp
    · rw [if_neg hw]
      by_cases hre : retryPoll p = true
      · rw [if_pos hre]
        constructor
        · rintro (hE | ⟨hq, hA⟩)
          · exact Or.inl (Or.inr hE)
          · exact Or.inr ⟨hq, hre, hA⟩
        · rintro ((⟨hP, hA⟩ | hE) | ⟨hq, -, hA⟩)
          · exact absurd hP hw
          · exact Or.inl hE
          · exact Or.inr ⟨hq, hA⟩
      · rw [if_neg hre]
        constructor
        · rintro (hE | ⟨hn, -⟩)
          · exact Or.inl (Or.inr hE)
          · exact absurd rfl hn
        · rintro ((⟨hP, -⟩ | hE) | ⟨-, hQp, -⟩)
          · exact absurd hP hw
          · exact Or.inl hE
          · exact absurd hQp hre

/-- C1 counterexample: after a dirty waiting poll sets pendingSince to 100,
a poll that observes a clean working tree but unpushed commits completes a
whole sync attempt (a push is issued) and yet pendingSince remains set, so
it both survives a completed sync attempt and persists across a poll that
observes a clean tree. -/
theorem C1_counterexample :
    runPolls 60 none [pollDirtyWait] = some 100 ∧
    get_modified_files pollCleanAhead.git = [] ∧
    GitCmd.push ∈ (sync pollCleanAhead (some 100) 60).2 ∧
    runPolls 60 none [pollDirtyWait, pollCleanAhead] = some 100 := by decide

/-- C1 amended: after any poll sequence starting from a cleared state,
pendingSince is non-null exactly when some poll observed a dirty tree with
idle time below the threshold and every later poll took the clean-tree,
unpushed-commits push-retry branch, which leaves pendingSince untouched;
every other poll (a dirty sync, or a clean tree without unpushed commits)
clears it. -/
theorem C1_pending_characterization (thr : Int) (ps : List PollEnv) :
    runPolls thr none ps ≠ none ↔
      ∃ l x r, ps = l ++ x :: r ∧ waitsPoll thr x = true ∧
        ∀ y ∈ r, retryPoll y = true := by
  have h := runPolls_ne_none_iff thr ps none
  simpa using h

/-- C1 witness: the characterization applied to the one-poll sequence of a
dirty waiting poll. -/
theorem C1_pending_characterization_witness :
    ∃ l x r, [pollDirtyWait] = l ++ x :: r ∧ waitsPoll 60 x = true ∧
      ∀ y ∈ r, retryPoll y = true :=
  (C1_pending_characterization 60 [pollDirtyWait]).mp (by decide)

end GitSync
